import Mathlib

/-!
Verification of the TransformRobust repository: a shallow embedding of
`src/attack.py` (`LinfPGDAttack`) and
`src/trainer/robust_plus_regularization_trainer/robust_plus_fm_trainer.py`
(`RobustPlusFeatureMatchingTrainer`), with theorems settling the frozen
claims about the Linf PGD attack and the feature-matching training step.

Tensors are embedded elementwise as functions `ι → ℚ` over an abstract
index type `ι` (an element of a batch of shape `[N,C,H,W]`); per-channel
quantities such as the normalized epsilon are functions `ι → ℚ` obtained
by broadcasting over a channel projection.  Automatic differentiation is
embedded as a gradient oracle: a function giving, for the current model
parameters and the current input values, the gradient of the loss with
respect to the input (and with respect to the parameters).  In-place
tensor mutation (`.data` assignment, `.zero_()`, parameter-flag toggling)
is embedded as explicit state passing, and Python exceptions as `Except`.
-/

namespace TransformRobust

/-- Modelled from the spec: `clamp` is imported in `attack.py` from
`src/utils`, which is not under `src/`.  Per spec §4.2 it is the
elementwise clip of a value into `[lo, hi]`. -/
def clamp (v lo hi : ℚ) : ℚ := max lo (min hi v)

/-- Elementwise `torch.sign`: -1 for negative, 0 for zero, 1 for positive.
Embeds `xt.grad.detach().sign()` at a single element. -/
def tsign (q : ℚ) : ℚ := if q < 0 then -1 else if q = 0 then 0 else 1

/-- The attack state held by a constructed `LinfPGDAttack`
(`attack.py` lines 43-49): the normalized clip bounds, epsilon and step
size (all per-element after broadcasting over channels), the
`random_init` integer flag (Python truthiness: nonzero means on), and the
iteration count `num_steps`. -/
structure AttackConfig (ι : Type) where
  clipMin : ι → ℚ
  clipMax : ι → ℚ
  epsilon : ι → ℚ
  stepSize : ι → ℚ
  randomInit : Int
  numSteps : Nat

/-- The spec's ConfigurationError (§7).  The source never raises it. -/
inductive ConfigError where
  | zeroStd : ConfigError
deriving DecidableEq

/-- Raw constructor arguments of `LinfPGDAttack.__init__`
(`attack.py` lines 29-33).  `get_mean_and_std` is an external collaborator,
so the dataset per-channel mean and std are passed in directly. -/
structure InitArgs where
  mean : Fin 3 → ℚ
  std : Fin 3 → ℚ
  clipMin : ℚ
  clipMax : ℚ
  epsilon : ℚ
  stepSize : ℚ
  randomInit : Int
  numSteps : Nat

/-- Embeds `LinfPGDAttack.__init__` (`attack.py` lines 34-50):
`clip_max = (clip_max - mean) / std`, `clip_min = (clip_min - mean) / std`,
`epsilon = epsilon / std`, `step_size = step_size / std`, each broadcast
over the channel projection `chan`.  The result is wrapped in `Except`
to record whether construction can fail: the source performs no
validation whatsoever, so this always returns `Except.ok`.  (In torch
float semantics a zero std entry makes these divisions produce
infinities; construction still succeeds.) -/
def LinfPGDAttack.initE {ι : Type} (a : InitArgs) (chan : ι → Fin 3) :
    Except ConfigError (AttackConfig ι) :=
  Except.ok
    { clipMin := fun i => (a.clipMin - a.mean (chan i)) / a.std (chan i)
      clipMax := fun i => (a.clipMax - a.mean (chan i)) / a.std (chan i)
      epsilon := fun i => a.epsilon / a.std (chan i)
      stepSize := fun i => a.stepSize / a.std (chan i)
      randomInit := a.randomInit
      numSteps := a.numSteps }

/-- A tensor as `calc_perturbation` manipulates it: elementwise values,
an elementwise gradient buffer (`.grad`), and the `requires_grad` flag. -/
structure TensorQ (ι : Type) where
  val : ι → ℚ
  grad : ι → ℚ
  requiresGrad : Bool

/-- The autodiff oracle for the external model: given the current model
parameters and the current input values, `gradInput` is the gradient of
`loss_function(model(xt), target)` with respect to `xt`, and
`gradParams` its gradient with respect to the parameters.  This embeds
lines 66-70 of `attack.py` (`y_hat = model(xt)`, `loss = ...`,
`loss.backward()`). -/
structure ModelOracle (ι π : Type) where
  gradInput : (π → ℚ) → (ι → ℚ) → ι → ℚ
  gradParams : (π → ℚ) → (ι → ℚ) → π → ℚ

/-- The mutable environment `calc_perturbation` runs in: the input batch
`x` (the argument tensor's storage), the model's parameter values, the
model's parameter gradient buffers, and the per-parameter
`requires_grad` flags. -/
structure AttackState (ι π : Type) where
  x : ι → ℚ
  params : π → ℚ
  paramGrads : π → ℚ
  paramsReqGrad : π → Bool

/-- One iteration of the `for it in range(self.num_steps)` loop of
`calc_perturbation` (`attack.py` lines 65-77):
`self.model.zero_grad()`; `loss.backward()` accumulates into the gradient
buffers of every tensor that requires grad; `grad_sign =
xt.grad.detach().sign()`; `xt.data = xt.detach() + step_size * grad_sign`;
`xt.data = clamp(xt - x, -epsilon, epsilon) + x`;
`xt.data = clamp(xt.detach(), min, max)`; `xt.grad.data.zero_()`. -/
def pgdBody {ι π : Type} (cfg : AttackConfig ι) (m : ModelOracle ι π)
    (s : AttackState ι π) (xt : TensorQ ι) : AttackState ι π × TensorQ ι :=
  let pg0 : π → ℚ := fun _ => 0
  let pg : π → ℚ := fun p =>
    if s.paramsReqGrad p then pg0 p + m.gradParams s.params xt.val p else pg0 p
  let xg : ι → ℚ := fun i =>
    if xt.requiresGrad then xt.grad i + m.gradInput s.params xt.val i else xt.grad i
  let gsign : ι → ℚ := fun i => tsign (xg i)
  let v1 : ι → ℚ := fun i => xt.val i + cfg.stepSize i * gsign i
  let v2 : ι → ℚ := fun i =>
    clamp (v1 i - s.x i) (-(cfg.epsilon i)) (cfg.epsilon i) + s.x i
  let v3 : ι → ℚ := fun i => clamp (v2 i) (cfg.clipMin i) (cfg.clipMax i)
  ({ s with paramGrads := pg },
   { val := v3, grad := fun _ => 0, requiresGrad := xt.requiresGrad })

/-- The state and the tensor `xt` after `n` iterations of the loop of
`calc_perturbation`, starting from environment `s0` and tensor `xt0`. -/
def pgdAfter {ι π : Type} (cfg : AttackConfig ι) (m : ModelOracle ι π)
    (s0 : AttackState ι π) (xt0 : TensorQ ι) : Nat → AttackState ι π × TensorQ ι
  | 0 => (s0, xt0)
  | n + 1 =>
      let st := pgdAfter cfg m s0 xt0 n
      pgdBody cfg m st.1 st.2

/-- The tensor `xt` before the loop of `calc_perturbation`
(`attack.py` lines 59-63): `delta = torch.zeros_like(x)`;
`if self.random_init: delta = self.random_delta(delta)` where
`random_delta` draws `delta.uniform_(-1, 1)` and scales by epsilon
(lines 52-56, the uniform draw passed in as `randDraw`); `xt = x + delta`;
`xt.requires_grad = True`. -/
def calcXt0 {ι : Type} (cfg : AttackConfig ι) (randDraw : ι → ℚ)
    (x : ι → ℚ) : TensorQ ι :=
  let delta : ι → ℚ := fun i =>
    if cfg.randomInit ≠ 0 then randDraw i * cfg.epsilon i else 0
  { val := fun i => x i + delta i, grad := fun _ => 0, requiresGrad := true }

/-- Embeds `LinfPGDAttack.calc_perturbation` (`attack.py` lines 58-79):
build `xt` from the (possibly random) delta, run the loop `num_steps`
times, return `xt` together with the final environment. -/
def calcPerturbation {ι π : Type} (cfg : AttackConfig ι) (m : ModelOracle ι π)
    (randDraw : ι → ℚ) (s : AttackState ι π) : AttackState ι π × TensorQ ι :=
  pgdAfter cfg m s (calcXt0 cfg randDraw s.x) cfg.numSteps

/-!
Embedding of `RobustPlusFeatureMatchingTrainer`
(`robust_plus_fm_trainer.py`).  A captured feature batch is embedded as a
list of per-sample flattened feature vectors (`List (List ℚ)`), so
`mean(dim=0)` is the pointwise mean of the rows and the later
`.flatten()` is the identity.  The external model is an oracle giving,
for an input batch, its outputs and the activation entering the hooked
block.  `ADVTrainer` (the base class), `make_blocks` and the torch hook
machinery are not under `src/`; the parts of them a claim depends on are
modelled from the spec and say so in their doc comments.
-/

/-- A captured feature batch: one flattened feature vector per sample. -/
abbrev Feat : Type := List (List ℚ)

/-- Embeds the registered hook `_get_layer_inputs`
(`robust_plus_fm_trainer.py` lines 154-156): if `self.model.training`,
append a clone of the block's input to `self._hooked_features_list`;
otherwise do nothing. -/
def getLayerInputs (training : Bool) (buf : List Feat) (inp : Feat) : List Feat :=
  if training then buf ++ [inp] else buf

/-- The external model as the trainer sees it: `out` is the forward
pass's output batch, `feat` the activation entering the hooked block
(the input of block `total_blocks - k + 1`, captured by the hook). -/
structure HookedModel (Input Out : Type) where
  out : Input → Out
  feat : Input → Feat

/-- One forward pass `self.model(b)` through the hooked model: produce
the outputs and fire the registered forward hook once, which appends to
the capture buffer exactly when the model is in training mode. -/
def forwardPass {Input Out : Type} (m : HookedModel Input Out)
    (training : Bool) (buf : List Feat) (b : Input) : Out × List Feat :=
  (m.out b, getLayerInputs training buf (m.feat b))

/-- The capture buffer as it stands when `step_batch` reads the feature
pair (`robust_plus_fm_trainer.py` lines 37-38): the buffer after the
adversarial-branch forward pass (line 34) followed by the clean-branch
forward pass (line 35), starting from the buffer contents `buf0` that
were in place after adversarial generation. -/
def featuresAtRead {Input Out : Type} (m : HookedModel Input Out)
    (training : Bool) (buf0 : List Feat) (advInputs inputs : Input) : List Feat :=
  (forwardPass m training (forwardPass m training buf0 advInputs).2 inputs).2

/-- The trainer-side mutable state a batch step touches: the hook's
capture buffer `_hooked_features_list`, the model's training-mode flag,
and the per-parameter `requires_grad` flags. -/
structure TrainerState (π : Type) where
  hookedFeatures : List Feat
  modelTraining : Bool
  paramsReqGrad : π → Bool

/-- Embeds `_freeze_trainable_parameters`
(`robust_plus_fm_trainer.py` lines 158-160): set `p.requires_grad = False`
for every model parameter. -/
def freezeTrainableParameters {π : Type} (st : TrainerState π) : TrainerState π :=
  { st with paramsReqGrad := fun _ => false }

/-- Embeds `_unfreeze_trainable_parameters`
(`robust_plus_fm_trainer.py` lines 162-164): set `p.requires_grad = True`
for every model parameter. -/
def unfreezeTrainableParameters {π : Type} (st : TrainerState π) : TrainerState π :=
  { st with paramsReqGrad := fun _ => true }

/-- Errors a batch step can raise: `indexError` for a Python
`IndexError` when reading the capture buffer, `runtimeError` for the
spec's RuntimeComputationError propagating out of adversarial
generation. -/
inductive TrainerErr where
  | indexError : TrainerErr
  | runtimeError : TrainerErr
deriving DecidableEq

/-- Modelled from the spec: `ADVTrainer._gen_adv` is code of this
repository that is not under `src/` (only its caller at
`robust_plus_fm_trainer.py` line 31 is).  Per spec §4.2/§4.3 it runs the
attack's forward passes with the model in evaluation mode — so the
registered forward hook's captures are suppressed — and restores
training mode when the attack returns; a forward failure inside the
attack propagates unmodified (spec §7, RuntimeComputationError).
`attackResult` is the attack's outcome and `attackFeats` the activations
the hook callback is offered during the attack's internal forward
passes: each is fed to `getLayerInputs` with the model in evaluation
mode, so none is appended. -/
def genAdv {Input π : Type} (attackResult : Except Unit Input)
    (attackFeats : List Feat) (st : TrainerState π) :
    TrainerState π × Except Unit Input :=
  let stE := { st with modelTraining := false }
  let buf := attackFeats.foldl (getLayerInputs stE.modelTraining) stE.hookedFeatures
  match attackResult with
  | Except.error e => ({ stE with hookedFeatures := buf }, Except.error e)
  | Except.ok adv =>
      ({ stE with hookedFeatures := buf, modelTraining := true }, Except.ok adv)

/-- `t.mean(dim=0)` for a feature batch: the pointwise mean of the
per-sample rows, each entry divided by the number of samples. -/
def meanDim0 (f : Feat) : List ℚ :=
  match f with
  | [] => []
  | r :: rs =>
      (rs.foldl (fun acc row => acc.zipWith (· + ·) row) r).map
        (fun s => s / ((r :: rs).length : ℚ))

/-- Pointwise difference of two flattened feature vectors. -/
def zipSub (a b : List ℚ) : List ℚ := a.zipWith (· - ·) b

/-- `v.norm(p=2) ** 2` for a flattened vector `v`: the squared Euclidean
norm, i.e. the sum of the squared entries (the source computes the
2-norm and squares it; the composition is embedded directly as the sum
of squares, its exact value, since ℚ has no square root). -/
def sqSum (v : List ℚ) : ℚ := (v.map (fun a => a * a)).sum

/-- The numeric results `step_batch` returns (line 60).  The two
accuracy figures of the source are argmax comparisons against the
labels, not referenced by any claim, and are omitted. -/
structure StepResult where
  loss : ℚ
  regTerm : ℚ
  lTerm : ℚ
deriving DecidableEq

/-- The consumption phase of `step_batch`
(`robust_plus_fm_trainer.py` lines 37-49): read
`_hooked_features_list[0]` and `[1]` (a Python `IndexError` when the
buffer is shorter; the extra entries of a longer buffer are ignored),
form the regularization term (line 43), clear the buffer (line 45), and
assemble `loss = l_term + regularization_term * lambda` (lines 47-49),
where `lterm` is `criterion(adv_outputs, labels)`. -/
def consumeAndAssemble {π : Type} (st3 : TrainerState π) (buf2 : List Feat)
    (lterm lam : ℚ) : TrainerState π × Except TrainerErr StepResult :=
  match buf2[0]?, buf2[1]? with
  | some rAdv, some rClean =>
      let reg := sqSum (zipSub (meanDim0 rAdv) (meanDim0 rClean))
      ({ st3 with hookedFeatures := [] },
       Except.ok { loss := lterm + reg * lam, regTerm := reg, lTerm := lterm })
  | _, _ => ({ st3 with hookedFeatures := buf2 }, Except.error TrainerErr.indexError)

/-- Embeds `RobustPlusFeatureMatchingTrainer.step_batch`
(`robust_plus_fm_trainer.py` lines 26-60): freeze the parameters
(line 30), generate the adversarial batch (line 31, exceptions
propagating with the state as mutated so far), unfreeze (line 32),
forward the adversarial then the clean batch (lines 34-35, filling the
capture buffer through the registered hook), then consume the buffer and
assemble the loss (lines 37-49).  The optimizer's
`zero_grad`/`backward`/`step` mutate objects outside the embedded
state. -/
def stepBatch {Input Out Labels π : Type} (m : HookedModel Input Out)
    (crit : Out → Labels → ℚ) (lam : ℚ)
    (attackResult : Except Unit Input) (attackFeats : List Feat)
    (st : TrainerState π) (inputs : Input) (labels : Labels) :
    TrainerState π × Except TrainerErr StepResult :=
  let st1 := freezeTrainableParameters st
  match genAdv attackResult attackFeats st1 with
  | (st2, Except.error _) => (st2, Except.error TrainerErr.runtimeError)
  | (st2, Except.ok advInputs) =>
      let st3 := unfreezeTrainableParameters st2
      consumeAndAssemble st3
        (featuresAtRead m st3.modelTraining st3.hookedFeatures advInputs inputs)
        (crit (m.out advInputs) labels) lam

/-! ### Helper lemmas about the attack loop -/

theorem clamp_le_hi (v lo hi : ℚ) (h : lo ≤ hi) : clamp v lo hi ≤ hi := by
  unfold clamp
  exact max_le h (min_le_left _ _)

theorem lo_le_clamp (v lo hi : ℚ) : lo ≤ clamp v lo hi := le_max_left _ _

theorem clamp_eq_self (v lo hi : ℚ) (h1 : lo ≤ v) (h2 : v ≤ hi) :
    clamp v lo hi = v := by
  unfold clamp
  rw [min_eq_right h2, max_eq_right h1]

theorem tsign_of_pos (q : ℚ) (h : 0 < q) : tsign q = 1 := by
  unfold tsign
  rw [if_neg (not_lt.mpr h.le), if_neg (ne_of_gt h)]

/-- The projection steps of one PGD iteration (`attack.py` lines 74-75)
send any value into `[x - ε, x + ε] ∩ [lo, hi]`, provided `0 ≤ ε` and
`lo ≤ x ≤ hi`. -/
theorem projStep_bounds (x ε lo hi v : ℚ) (hε : 0 ≤ ε) (h1 : lo ≤ x) (h2 : x ≤ hi) :
    x - ε ≤ clamp (clamp (v - x) (-ε) ε + x) lo hi ∧
    clamp (clamp (v - x) (-ε) ε + x) lo hi ≤ x + ε ∧
    lo ≤ clamp (clamp (v - x) (-ε) ε + x) lo hi ∧
    clamp (clamp (v - x) (-ε) ε + x) lo hi ≤ hi := by
  have hεε : -ε ≤ ε := le_trans (neg_nonpos.mpr hε) hε
  have hc1 : -ε ≤ clamp (v - x) (-ε) ε := lo_le_clamp _ _ _
  have hc2 : clamp (v - x) (-ε) ε ≤ ε := clamp_le_hi _ _ _ hεε
  have hlow : x - ε ≤ clamp (v - x) (-ε) ε + x := by linarith
  have hhigh : clamp (v - x) (-ε) ε + x ≤ x + ε := by linarith
  refine ⟨?_, ?_, lo_le_clamp _ _ _, clamp_le_hi _ _ _ (le_trans h1 h2)⟩
  · unfold clamp
    have : x - ε ≤ min hi (clamp (v - x) (-ε) ε + x) :=
      le_min (by linarith) hlow
    exact le_trans this (le_max_right _ _)
  · unfold clamp
    exact max_le (by linarith) (le_trans (min_le_right _ _) hhigh)

theorem pgdBody_x {ι π : Type} (cfg : AttackConfig ι) (m : ModelOracle ι π)
    (s : AttackState ι π) (xt : TensorQ ι) : (pgdBody cfg m s xt).1.x = s.x := rfl

theorem pgdBody_params {ι π : Type} (cfg : AttackConfig ι) (m : ModelOracle ι π)
    (s : AttackState ι π) (xt : TensorQ ι) :
    (pgdBody cfg m s xt).1.params = s.params := rfl

theorem pgdBody_requiresGrad {ι π : Type} (cfg : AttackConfig ι) (m : ModelOracle ι π)
    (s : AttackState ι π) (xt : TensorQ ι) :
    (pgdBody cfg m s xt).2.requiresGrad = xt.requiresGrad := rfl

theorem pgdAfter_x {ι π : Type} (cfg : AttackConfig ι) (m : ModelOracle ι π)
    (s0 : AttackState ι π) (xt0 : TensorQ ι) (n : Nat) :
    (pgdAfter cfg m s0 xt0 n).1.x = s0.x := by
  induction n with
  | zero => rfl
  | succ k ih => rw [pgdAfter, pgdBody_x, ih]

theorem pgdAfter_params {ι π : Type} (cfg : AttackConfig ι) (m : ModelOracle ι π)
    (s0 : AttackState ι π) (xt0 : TensorQ ι) (n : Nat) :
    (pgdAfter cfg m s0 xt0 n).1.params = s0.params := by
  induction n with
  | zero => rfl
  | succ k ih => rw [pgdAfter, pgdBody_params, ih]

theorem pgdAfter_requiresGrad {ι π : Type} (cfg : AttackConfig ι) (m : ModelOracle ι π)
    (s0 : AttackState ι π) (xt0 : TensorQ ι) (n : Nat) :
    (pgdAfter cfg m s0 xt0 n).2.requiresGrad = xt0.requiresGrad := by
  induction n with
  | zero => rfl
  | succ k ih => rw [pgdAfter, pgdBody_requiresGrad, ih]

/-- The value of `xt` produced by one loop iteration is exactly the
double projection applied to the sign-step update. -/
theorem pgdBody_val {ι π : Type} (cfg : AttackConfig ι) (m : ModelOracle ι π)
    (s : AttackState ι π) (xt : TensorQ ι) (i : ι) :
    (pgdBody cfg m s xt).2.val i =
      clamp (clamp (xt.val i + cfg.stepSize i *
          tsign (if xt.requiresGrad then xt.grad i + m.gradInput s.params xt.val i
                 else xt.grad i) - s.x i)
        (-(cfg.epsilon i)) (cfg.epsilon i) + s.x i)
        (cfg.clipMin i) (cfg.clipMax i) := rfl

/-- After any loop iteration the perturbed value lies in the epsilon
ball around the input and in the clip range, whatever tensor entered
the iteration. -/
theorem pgdBody_bounds {ι π : Type} (cfg : AttackConfig ι) (m : ModelOracle ι π)
    (s : AttackState ι π) (xt : TensorQ ι) (i : ι)
    (hε : 0 ≤ cfg.epsilon i) (h1 : cfg.clipMin i ≤ s.x i) (h2 : s.x i ≤ cfg.clipMax i) :
    s.x i - cfg.epsilon i ≤ (pgdBody cfg m s xt).2.val i ∧
    (pgdBody cfg m s xt).2.val i ≤ s.x i + cfg.epsilon i ∧
    cfg.clipMin i ≤ (pgdBody cfg m s xt).2.val i ∧
    (pgdBody cfg m s xt).2.val i ≤ cfg.clipMax i := by
  rw [pgdBody_val]
  exact projStep_bounds (s.x i) (cfg.epsilon i) (cfg.clipMin i) (cfg.clipMax i) _ hε h1 h2

/-- The epsilon-ball and clip-range bounds hold after every completed
loop iteration of `calc_perturbation`, for inputs inside the clip range
and a nonnegative epsilon. -/
theorem pgdAfter_bounds {ι π : Type} (cfg : AttackConfig ι) (m : ModelOracle ι π)
    (s0 : AttackState ι π) (xt0 : TensorQ ι) (n : Nat) (hn : 1 ≤ n) (i : ι)
    (hε : 0 ≤ cfg.epsilon i) (h1 : cfg.clipMin i ≤ s0.x i) (h2 : s0.x i ≤ cfg.clipMax i) :
    s0.x i - cfg.epsilon i ≤ (pgdAfter cfg m s0 xt0 n).2.val i ∧
    (pgdAfter cfg m s0 xt0 n).2.val i ≤ s0.x i + cfg.epsilon i ∧
    cfg.clipMin i ≤ (pgdAfter cfg m s0 xt0 n).2.val i ∧
    (pgdAfter cfg m s0 xt0 n).2.val i ≤ cfg.clipMax i := by
  obtain ⟨k, rfl⟩ : ∃ k, n = k + 1 := ⟨n - 1, (Nat.succ_pred_eq_of_pos hn).symm⟩
  have hxk := pgdAfter_x cfg m s0 xt0 k
  have h := pgdBody_bounds cfg m (pgdAfter cfg m s0 xt0 k).1
      (pgdAfter cfg m s0 xt0 k).2 i hε (by rw [hxk]; exact h1) (by rw [hxk]; exact h2)
  rw [hxk] at h
  exact h

/-! ### Concrete fixtures used by witnesses and counterexamples -/

/-- A one-element attack configuration in already-normalized space:
clip range `[0, 1]`, epsilon `1/10`, step size `1/20`, with a chosen
`random_init` flag and step count. -/
def exCfg (ri : Int) (ns : Nat) : AttackConfig Unit :=
  { clipMin := fun _ => 0
    clipMax := fun _ => 1
    epsilon := fun _ => 1/10
    stepSize := fun _ => 1/20
    randomInit := ri
    numSteps := ns }

/-- A linear-model gradient oracle whose loss gradient with respect to
the input is the constant `1` (strictly increasing loss in the positive
perturbation direction). -/
def exModel : ModelOracle Unit Unit :=
  { gradInput := fun _ _ _ => 1
    gradParams := fun _ _ _ => 0 }

/-- An attack environment with the input element at `1/2`. -/
def exState : AttackState Unit Unit :=
  { x := fun _ => 1/2
    params := fun _ => 3
    paramGrads := fun _ => 0
    paramsReqGrad := fun _ => true }

/-- An attack environment with the input element at the clip maximum. -/
def exStateMax : AttackState Unit Unit :=
  { x := fun _ => 1
    params := fun _ => 3
    paramGrads := fun _ => 0
    paramsReqGrad := fun _ => true }

/-! ### Claims about `LinfPGDAttack` -/

/-- Claim C1, amended: for every attack configuration with nonnegative
per-channel epsilon, every input batch lying inside `[clip_min, clip_max]`,
and either `num_steps ≥ 1` or `random_init = 0`, every element of the
batch returned by `calc_perturbation` lies within
`[input - epsilon, input + epsilon]` per channel and within
`[clip_min, clip_max]`, and this invariant holds after every loop
iteration.  (The unamended claim also covered `num_steps = 0` with
`random_init = 1`, where the returned batch is `input + delta` without
any projection and can leave the clip range.) -/
theorem C1_output_within_bounds {ι π : Type} (cfg : AttackConfig ι)
    (m : ModelOracle ι π) (randDraw : ι → ℚ) (s : AttackState ι π)
    (hx : ∀ i, cfg.clipMin i ≤ s.x i ∧ s.x i ≤ cfg.clipMax i)
    (hε : ∀ i, 0 ≤ cfg.epsilon i)
    (hns : 1 ≤ cfg.numSteps ∨ cfg.randomInit = 0) :
    (∀ i,
      s.x i - cfg.epsilon i ≤ (calcPerturbation cfg m randDraw s).2.val i ∧
      (calcPerturbation cfg m randDraw s).2.val i ≤ s.x i + cfg.epsilon i ∧
      cfg.clipMin i ≤ (calcPerturbation cfg m randDraw s).2.val i ∧
      (calcPerturbation cfg m randDraw s).2.val i ≤ cfg.clipMax i) ∧
    (∀ n, 1 ≤ n → n ≤ cfg.numSteps → ∀ i,
      s.x i - cfg.epsilon i ≤ (pgdAfter cfg m s (calcXt0 cfg randDraw s.x) n).2.val i ∧
      (pgdAfter cfg m s (calcXt0 cfg randDraw s.x) n).2.val i ≤ s.x i + cfg.epsilon i ∧
      cfg.clipMin i ≤ (pgdAfter cfg m s (calcXt0 cfg randDraw s.x) n).2.val i ∧
      (pgdAfter cfg m s (calcXt0 cfg randDraw s.x) n).2.val i ≤ cfg.clipMax i) := by
  constructor
  · intro i
    cases Nat.eq_zero_or_pos cfg.numSteps with
    | inl h0 =>
        have hri : cfg.randomInit = 0 := by
          rcases hns with hns | hri
          · omega
          · exact hri
        have hval : (calcPerturbation cfg m randDraw s).2.val i = s.x i := by
          unfold calcPerturbation
          rw [h0]
          show (calcXt0 cfg randDraw s.x).val i = s.x i
          unfold calcXt0
          simp [hri]
        rw [hval]
        exact ⟨by linarith [hε i], by linarith [hε i], (hx i).1, (hx i).2⟩
    | inr hpos =>
        exact pgdAfter_bounds cfg m s (calcXt0 cfg randDraw s.x) cfg.numSteps hpos i
          (hε i) (hx i).1 (hx i).2
  · intro n hn _ i
    exact pgdAfter_bounds cfg m s (calcXt0 cfg randDraw s.x) n hn i
      (hε i) (hx i).1 (hx i).2

/-- Claim C1 witness: the amended bounds, applied at the concrete
configuration `exCfg 0 1` (one step, no random start) on the input
`1/2`. -/
theorem C1_output_within_bounds_witness :
    ((∀ i : Unit, (exCfg 0 1).clipMin i ≤ exState.x i ∧ exState.x i ≤ (exCfg 0 1).clipMax i) ∧
     (∀ i : Unit, 0 ≤ (exCfg 0 1).epsilon i) ∧
     (1 ≤ (exCfg 0 1).numSteps ∨ (exCfg 0 1).randomInit = 0)) ∧
    (exState.x () - (exCfg 0 1).epsilon () ≤
        (calcPerturbation (exCfg 0 1) exModel (fun _ => 0) exState).2.val () ∧
     (calcPerturbation (exCfg 0 1) exModel (fun _ => 0) exState).2.val () ≤
        exState.x () + (exCfg 0 1).epsilon () ∧
     (exCfg 0 1).clipMin () ≤ (calcPerturbation (exCfg 0 1) exModel (fun _ => 0) exState).2.val () ∧
     (calcPerturbation (exCfg 0 1) exModel (fun _ => 0) exState).2.val () ≤ (exCfg 0 1).clipMax ()) :=
  ⟨⟨fun _ => by constructor <;> norm_num [exCfg, exState],
    fun _ => by norm_num [exCfg],
    Or.inl (by norm_num [exCfg])⟩,
   (C1_output_within_bounds (exCfg 0 1) exModel (fun _ => 0) exState
      (fun _ => by constructor <;> norm_num [exCfg, exState])
      (fun _ => by norm_num [exCfg])
      (Or.inl (by norm_num [exCfg]))).1 ()⟩

/-- Claim C1 counterexample: with `num_steps = 0` and `random_init = 1`,
an input at the clip maximum and the uniform draw `1`, the returned
element is `1 + 1/10 = 11/10`, strictly above `clip_max = 1` — the
claimed invariant fails for the returned batch. -/
theorem C1_counterexample :
    (exCfg 1 0).clipMax () <
      (calcPerturbation (exCfg 1 0) exModel (fun _ => 1) exStateMax).2.val () := by
  show (1 : ℚ) < (calcPerturbation (exCfg 1 0) exModel (fun _ => 1) exStateMax).2.val ()
  norm_num [calcPerturbation, pgdAfter, calcXt0, exCfg, exStateMax]

/-- Claim C10: with `num_steps = 0` and `random_init = 0`,
`calc_perturbation` returns the input batch exactly, element for
element (`delta` is the zero tensor and the loop body never runs). -/
theorem C10_zero_steps_identity {ι π : Type} (cfg : AttackConfig ι)
    (m : ModelOracle ι π) (randDraw : ι → ℚ) (s : AttackState ι π)
    (h0 : cfg.numSteps = 0) (hri : cfg.randomInit = 0) :
    ∀ i, (calcPerturbation cfg m randDraw s).2.val i = s.x i := by
  intro i
  unfold calcPerturbation
  rw [h0]
  show (calcXt0 cfg randDraw s.x).val i = s.x i
  unfold calcXt0
  simp [hri]

/-- Claim C10 witness: the zero-step identity at the concrete
configuration `exCfg 0 0` on the input `1/2`. -/
theorem C10_zero_steps_identity_witness :
    ((exCfg 0 0).numSteps = 0 ∧ (exCfg 0 0).randomInit = 0) ∧
    (calcPerturbation (exCfg 0 0) exModel (fun _ => 1) exState).2.val () = exState.x () :=
  ⟨⟨rfl, rfl⟩,
   C10_zero_steps_identity (exCfg 0 0) exModel (fun _ => 1) exState rfl rfl ()⟩

/-- Claim C7: `calc_perturbation` never modifies the input batch and
never changes any model parameter value: every write in the loop targets
`xt` or a gradient buffer, so the final environment carries the input
and the parameters unchanged. -/
theorem C7_input_and_params_unchanged {ι π : Type} (cfg : AttackConfig ι)
    (m : ModelOracle ι π) (randDraw : ι → ℚ) (s : AttackState ι π) :
    (calcPerturbation cfg m randDraw s).1.x = s.x ∧
    (calcPerturbation cfg m randDraw s).1.params = s.params :=
  ⟨pgdAfter_x cfg m s (calcXt0 cfg randDraw s.x) cfg.numSteps,
   pgdAfter_params cfg m s (calcXt0 cfg randDraw s.x) cfg.numSteps⟩

/-- Claim C6 counterexample: at a concrete configuration and input, the
tensor returned by `calc_perturbation` has `requires_grad = True` — the
claim that the returned batch does not require grad is false
(`xt.requires_grad = True` is set before the loop and never unset, and
no `.detach()` is applied to the returned value). -/
theorem C6_counterexample :
    (calcPerturbation (exCfg 0 0) exModel (fun _ => 0) exState).2.requiresGrad = true := rfl

/-- Claim C6, amended: for every input batch and labels, the batch
returned by `calc_perturbation` is the `xt` leaf tensor itself with its
`requires_grad` flag still `True`: the loop updates go through `.data`
so the result is not an output of the attack's internal computation
graph, but it is not detached — callers must detach it or evaluate under
`no_grad` themselves. -/
theorem C6_returned_requiresGrad {ι π : Type} (cfg : AttackConfig ι)
    (m : ModelOracle ι π) (randDraw : ι → ℚ) (s : AttackState ι π) :
    (calcPerturbation cfg m randDraw s).2.requiresGrad = true := by
  unfold calcPerturbation
  rw [pgdAfter_requiresGrad]
  rfl

/-- One PGD iteration in the C9 scenario.  With a strictly positive
input gradient, epsilon `1/10`, step size `1/20`, a zeroed gradient
buffer and a current offset `c ≥ 0` from the input (the clip range
leaving room for `x + 1/10`), the iteration moves the value to
`x + min (c + 1/20) (1/10)`: a signed step of `1/20` followed by the
projection onto the epsilon ball, the range clip being inactive. -/
theorem c9_body_val {ι π : Type} (cfg : AttackConfig ι) (m : ModelOracle ι π)
    (s : AttackState ι π) (xt : TensorQ ι) (i : ι) (c : ℚ)
    (hε : cfg.epsilon i = 1/10) (hstep : cfg.stepSize i = 1/20)
    (hgrad : 0 < m.gradInput s.params xt.val i)
    (hlo : cfg.clipMin i ≤ s.x i) (hhi : s.x i + 1/10 ≤ cfg.clipMax i)
    (hval : xt.val i = s.x i + c) (hc : 0 ≤ c)
    (hg : xt.grad i = 0) (hrg : xt.requiresGrad = true) :
    (pgdBody cfg m s xt).2.val i = s.x i + min (c + 1/20) (1/10) := by
  have hif : (if xt.requiresGrad then xt.grad i + m.gradInput s.params xt.val i
              else xt.grad i) = m.gradInput s.params xt.val i := by
    rw [hrg, if_pos rfl, hg, zero_add]
  rw [pgdBody_val, hif, tsign_of_pos _ hgrad, hval, hε, hstep]
  have e1 : s.x i + c + 1/20 * 1 - s.x i = c + 1/20 := by ring
  rw [e1]
  have e2 : clamp (c + 1/20) (-(1/10)) (1/10) = min (c + 1/20) (1/10) := by
    unfold clamp
    rw [max_eq_right (le_min (by norm_num) (by linarith)), min_comm]
  rw [e2]
  have hmin0 : 0 ≤ min (c + 1/20) (1/10 : ℚ) := le_min (by linarith) (by norm_num)
  have hminhi : min (c + 1/20) (1/10 : ℚ) ≤ 1/10 := min_le_right _ _
  rw [clamp_eq_self _ _ _ (by linarith) (by linarith)]
  exact add_comm _ _

/-- The gradient buffer of `xt` is zero at the start of every loop
iteration: the initial `xt` has no accumulated gradient and every
iteration ends with `xt.grad.data.zero_()`. -/
theorem pgdAfter_grad_zero {ι π : Type} (cfg : AttackConfig ι) (m : ModelOracle ι π)
    (s : AttackState ι π) (xt0 : TensorQ ι) (k : Nat) (i : ι) (hg0 : xt0.grad i = 0) :
    (pgdAfter cfg m s xt0 k).2.grad i = 0 := by
  cases k with
  | zero => exact hg0
  | succ n => rfl

/-- The C9 step lemma lifted to the iterates of the loop. -/
theorem c9_after_succ_val {ι π : Type} (cfg : AttackConfig ι) (m : ModelOracle ι π)
    (s : AttackState ι π) (xt0 : TensorQ ι) (k : Nat) (i : ι) (c : ℚ)
    (hε : cfg.epsilon i = 1/10) (hstep : cfg.stepSize i = 1/20)
    (hgrad : ∀ q v, 0 < m.gradInput q v i)
    (hlo : cfg.clipMin i ≤ s.x i) (hhi : s.x i + 1/10 ≤ cfg.clipMax i)
    (hval : (pgdAfter cfg m s xt0 k).2.val i = s.x i + c) (hc : 0 ≤ c)
    (hg0 : xt0.grad i = 0) (hrg : xt0.requiresGrad = true) :
    (pgdAfter cfg m s xt0 (k + 1)).2.val i = s.x i + min (c + 1/20) (1/10) := by
  have hx := pgdAfter_x cfg m s xt0 k
  have h := c9_body_val cfg m (pgdAfter cfg m s xt0 k).1 (pgdAfter cfg m s xt0 k).2 i c
      hε hstep (hgrad _ _) (by rw [hx]; exact hlo) (by rw [hx]; exact hhi)
      (by rw [hx]; exact hval) hc
      (pgdAfter_grad_zero cfg m s xt0 k i hg0)
      (by rw [pgdAfter_requiresGrad]; exact hrg)
  rw [hx] at h
  exact h

/-- Claim C9: for a model whose loss gradient with respect to the input
is strictly positive everywhere (a linear model `y = Wx` with loss
strictly monotonic in one perturbation direction), with epsilon `1/10`,
step size `1/20`, `num_steps = 3`, `random_init = 0`, and an input with
room for `x + epsilon` inside the clip range, the perturbation reaches
the epsilon-ball boundary `x + epsilon` after 2 loop iterations and
remains exactly there after the 3rd, which is also the returned value. -/
theorem C9_boundary_after_two_steps {ι π : Type} (cfg : AttackConfig ι)
    (m : ModelOracle ι π) (randDraw : ι → ℚ) (s : AttackState ι π)
    (hε : ∀ i, cfg.epsilon i = 1/10) (hstep : ∀ i, cfg.stepSize i = 1/20)
    (hns : cfg.numSteps = 3) (hri : cfg.randomInit = 0)
    (hgrad : ∀ q v i, 0 < m.gradInput q v i)
    (hlo : ∀ i, cfg.clipMin i ≤ s.x i) (hhi : ∀ i, s.x i + 1/10 ≤ cfg.clipMax i) :
    (∀ i, (pgdAfter cfg m s (calcXt0 cfg randDraw s.x) 2).2.val i = s.x i + cfg.epsilon i) ∧
    (∀ i, (pgdAfter cfg m s (calcXt0 cfg randDraw s.x) 3).2.val i = s.x i + cfg.epsilon i) ∧
    (∀ i, (calcPerturbation cfg m randDraw s).2.val i = s.x i + cfg.epsilon i) := by
  have hrg0 : (calcXt0 cfg randDraw s.x).requiresGrad = true := rfl
  have hg0 : ∀ i, (calcXt0 cfg randDraw s.x).grad i = 0 := fun _ => rfl
  have hv0 : ∀ i, (pgdAfter cfg m s (calcXt0 cfg randDraw s.x) 0).2.val i = s.x i + 0 := by
    intro i
    show (calcXt0 cfg randDraw s.x).val i = s.x i + 0
    unfold calcXt0
    simp [hri]
  have hv1 : ∀ i, (pgdAfter cfg m s (calcXt0 cfg randDraw s.x) 1).2.val i = s.x i + 1/20 := by
    intro i
    have h := c9_after_succ_val cfg m s (calcXt0 cfg randDraw s.x) 0 i 0
        (hε i) (hstep i) (fun q v => hgrad q v i) (hlo i) (hhi i) (hv0 i) le_rfl (hg0 i) hrg0
    rw [h]
    norm_num [min_def]
  have hv2 : ∀ i, (pgdAfter cfg m s (calcXt0 cfg randDraw s.x) 2).2.val i = s.x i + 1/10 := by
    intro i
    have h := c9_after_succ_val cfg m s (calcXt0 cfg randDraw s.x) 1 i (1/20)
        (hε i) (hstep i) (fun q v => hgrad q v i) (hlo i) (hhi i) (hv1 i) (by norm_num)
        (hg0 i) hrg0
    rw [h]
    norm_num [min_def]
  have hv3 : ∀ i, (pgdAfter cfg m s (calcXt0 cfg randDraw s.x) 3).2.val i = s.x i + 1/10 := by
    intro i
    have h := c9_after_succ_val cfg m s (calcXt0 cfg randDraw s.x) 2 i (1/10)
        (hε i) (hstep i) (fun q v => hgrad q v i) (hlo i) (hhi i) (hv2 i) (by norm_num)
        (hg0 i) hrg0
    rw [h]
    norm_num [min_def]
  refine ⟨fun i => ?_, fun i => ?_, fun i => ?_⟩
  · rw [hε i, hv2 i]
  · rw [hε i, hv3 i]
  · rw [hε i]
    unfold calcPerturbation
    rw [hns]
    exact hv3 i

/-- Claim C9 witness: the boundary scenario at the concrete linear-model
oracle `exModel` with input `1/2`, clip range `[0, 1]`. -/
theorem C9_boundary_after_two_steps_witness :
    ((∀ i : Unit, (exCfg 0 3).epsilon i = 1/10) ∧
     (∀ i : Unit, (exCfg 0 3).stepSize i = 1/20) ∧
     (exCfg 0 3).numSteps = 3 ∧ (exCfg 0 3).randomInit = 0 ∧
     (∀ q v : Unit → ℚ, ∀ i : Unit, 0 < exModel.gradInput q v i) ∧
     (∀ i : Unit, (exCfg 0 3).clipMin i ≤ exState.x i) ∧
     (∀ i : Unit, exState.x i + 1/10 ≤ (exCfg 0 3).clipMax i)) ∧
    ((pgdAfter (exCfg 0 3) exModel exState
        (calcXt0 (exCfg 0 3) (fun _ => 0) exState.x) 2).2.val () =
      exState.x () + (exCfg 0 3).epsilon () ∧
     (pgdAfter (exCfg 0 3) exModel exState
        (calcXt0 (exCfg 0 3) (fun _ => 0) exState.x) 3).2.val () =
      exState.x () + (exCfg 0 3).epsilon () ∧
     (calcPerturbation (exCfg 0 3) exModel (fun _ => 0) exState).2.val () =
      exState.x () + (exCfg 0 3).epsilon ()) := by
  have h := C9_boundary_after_two_steps (exCfg 0 3) exModel (fun _ => 0) exState
      (fun _ => rfl) (fun _ => rfl) rfl rfl
      (fun q v i => by norm_num [exModel]) (fun _ => by norm_num [exCfg, exState])
      (fun _ => by norm_num [exCfg, exState])
  exact ⟨⟨fun _ => rfl, fun _ => rfl, rfl, rfl,
    fun q v i => by norm_num [exModel], fun _ => by norm_num [exCfg, exState],
    fun _ => by norm_num [exCfg, exState]⟩,
    h.1 (), h.2.1 (), h.2.2 ()⟩

/-- Dataset statistics with a zero-variance second channel, as
`LinfPGDAttack.__init__` would receive them from `get_mean_and_std`. -/
def c5Args : InitArgs :=
  { mean := fun _ => 0
    std := fun j => if j.val = 1 then 0 else 1
    clipMin := 0
    clipMax := 1
    epsilon := 8/255
    stepSize := 2/255
    randomInit := 1
    numSteps := 20 }

/-- Claim C5 is violated by the code: `LinfPGDAttack.__init__` performs
no validation of the dataset std, so with a zero-variance channel the
construction still succeeds (in torch float semantics the divisions by
the zero std entry produce infinite normalized bounds, epsilon and step
size instead of raising a configuration error). -/
theorem C5_bug_init_accepts_zero_std :
    c5Args.std 1 = 0 ∧
    (LinfPGDAttack.initE c5Args (fun i : Fin 3 => i)).isOk = true :=
  ⟨rfl, rfl⟩

/-! ### Helper lemmas about the trainer -/

/-- With the model out of training mode, any sequence of hook callbacks
leaves the capture buffer unchanged. -/
theorem foldl_getLayerInputs_false (l : List Feat) (buf : List Feat) :
    l.foldl (getLayerInputs false) buf = buf := by
  induction l generalizing buf with
  | nil => rfl
  | cons f fs ih =>
      rw [List.foldl_cons]
      rw [show getLayerInputs false buf f = buf from rfl]
      exact ih buf

/-- Adversarial generation with a successful attack: the capture buffer
is untouched (every attack-internal forward pass runs in evaluation
mode), training mode is restored, the parameter flags are untouched, and
the adversarial batch is returned. -/
theorem genAdv_ok_state {Input π : Type} (adv : Input) (afs : List Feat)
    (st : TrainerState π) :
    (genAdv (Except.ok adv) afs st).1.hookedFeatures = st.hookedFeatures ∧
    (genAdv (Except.ok adv) afs st).1.modelTraining = true ∧
    (genAdv (Except.ok adv) afs st).1.paramsReqGrad = st.paramsReqGrad ∧
    (genAdv (Except.ok adv) afs st).2 = Except.ok adv := by
  refine ⟨?_, rfl, rfl, rfl⟩
  show afs.foldl (getLayerInputs false) st.hookedFeatures = st.hookedFeatures
  exact foldl_getLayerInputs_false afs st.hookedFeatures

/-- Starting from an empty buffer in training mode, the two paired
forward passes leave exactly the adversarial capture followed by the
clean capture in the buffer. -/
theorem featuresAtRead_training {Input Out : Type} (m : HookedModel Input Out)
    (adv inputs : Input) :
    featuresAtRead m true [] adv inputs = [m.feat adv, m.feat inputs] := by
  simp [featuresAtRead, forwardPass, getLayerInputs]

/-- The normal flow of `step_batch`: with an empty capture buffer, the
model in training mode and a successful attack, the step succeeds, the
buffer is cleared, all parameter flags end up `True`, and the returned
losses are assembled from the adversarial outputs and the two captured
features (`loss = l_term + regularization_term * lambda`, as the source
writes it). -/
theorem stepBatch_ok {Input Out Labels π : Type} (m : HookedModel Input Out)
    (crit : Out → Labels → ℚ) (lam : ℚ) (adv : Input) (afs : List Feat)
    (st : TrainerState π) (inputs : Input) (labels : Labels)
    (hbuf : st.hookedFeatures = []) ( _ht : st.modelTraining = true) :
    stepBatch m crit lam (Except.ok adv) afs st inputs labels =
      ({ hookedFeatures := [], modelTraining := true, paramsReqGrad := fun _ => true },
       Except.ok
        { loss := crit (m.out adv) labels +
            sqSum (zipSub (meanDim0 (m.feat adv)) (meanDim0 (m.feat inputs))) * lam,
          regTerm := sqSum (zipSub (meanDim0 (m.feat adv)) (meanDim0 (m.feat inputs))),
          lTerm := crit (m.out adv) labels }) := by
  have g := genAdv_ok_state adv afs (freezeTrainableParameters st)
  have e1 : (unfreezeTrainableParameters
      (genAdv (Except.ok adv) afs (freezeTrainableParameters st)).1).modelTraining = true := g.2.1
  have e2 : (unfreezeTrainableParameters
      (genAdv (Except.ok adv) afs (freezeTrainableParameters st)).1).hookedFeatures = [] := by
    rw [show (unfreezeTrainableParameters
        (genAdv (Except.ok adv) afs (freezeTrainableParameters st)).1).hookedFeatures =
        (genAdv (Except.ok adv) afs (freezeTrainableParameters st)).1.hookedFeatures from rfl, g.1]
    exact hbuf
  show consumeAndAssemble
      (unfreezeTrainableParameters
        (genAdv (Except.ok adv) afs (freezeTrainableParameters st)).1)
      (featuresAtRead m
        (unfreezeTrainableParameters
          (genAdv (Except.ok adv) afs (freezeTrainableParameters st)).1).modelTraining
        (unfreezeTrainableParameters
          (genAdv (Except.ok adv) afs (freezeTrainableParameters st)).1).hookedFeatures
        adv inputs)
      (crit (m.out adv) labels) lam = _
  rw [e1, e2, featuresAtRead_training m adv inputs]
  rfl

/-! ### Concrete trainer fixtures -/

/-- A concrete hooked model over rational batches: the forward output is
the batch itself and the captured feature the singleton batch `[[b]]`. -/
def exTModel : HookedModel ℚ ℚ :=
  { out := fun b => b
    feat := fun b => [[b]] }

/-- A trainer state at the start of a healthy batch step: empty capture
buffer, training mode on, all parameters trainable. -/
def exTState : TrainerState Unit :=
  { hookedFeatures := []
    modelTraining := true
    paramsReqGrad := fun _ => true }

/-- A trainer state carrying a stale leftover capture from an earlier
forward pass. -/
def exTStateStale : TrainerState Unit :=
  { hookedFeatures := [[[99]]]
    modelTraining := true
    paramsReqGrad := fun _ => true }

/-! ### Claims about `RobustPlusFeatureMatchingTrainer.step_batch` -/

/-- Claim C2: in a batch step started with an empty capture buffer, the
buffer is still empty and the model back in training mode after
adversarial generation (the attack's forward passes run in evaluation
mode, where the hook is suppressed), and at the moment the feature pair
is read the buffer holds exactly two entries — first the
adversarial-branch capture, then the clean-branch capture; the
registered hook appends nothing while the model is out of training
mode. -/
theorem C2_buffer_adv_then_clean {Input Out π : Type} (m : HookedModel Input Out)
    (adv inputs : Input) (afs : List Feat) (st : TrainerState π)
    (hbuf : st.hookedFeatures = []) :
    ((genAdv (Except.ok adv) afs (freezeTrainableParameters st)).1.hookedFeatures = []) ∧
    ((genAdv (Except.ok adv) afs (freezeTrainableParameters st)).1.modelTraining = true) ∧
    (featuresAtRead m
        (unfreezeTrainableParameters
          (genAdv (Except.ok adv) afs (freezeTrainableParameters st)).1).modelTraining
        (unfreezeTrainableParameters
          (genAdv (Except.ok adv) afs (freezeTrainableParameters st)).1).hookedFeatures
        adv inputs = [m.feat adv, m.feat inputs]) ∧
    (∀ buf f, getLayerInputs false buf f = buf) := by
  have g := genAdv_ok_state adv afs (freezeTrainableParameters st)
  have hb : (genAdv (Except.ok adv) afs (freezeTrainableParameters st)).1.hookedFeatures = [] := by
    rw [g.1]
    exact hbuf
  have e1 : (unfreezeTrainableParameters
      (genAdv (Except.ok adv) afs (freezeTrainableParameters st)).1).modelTraining = true := g.2.1
  have e2 : (unfreezeTrainableParameters
      (genAdv (Except.ok adv) afs (freezeTrainableParameters st)).1).hookedFeatures = [] := hb
  refine ⟨hb, g.2.1, ?_, fun buf f => rfl⟩
  rw [e1, e2]
  exact featuresAtRead_training m adv inputs

/-- Claim C2 witness: a concrete batch step (adversarial batch `2`,
clean batch `3`, one feature offered to the hook during the attack)
whose read point sees exactly the two branch captures in order. -/
theorem C2_buffer_adv_then_clean_witness :
    (exTState.hookedFeatures = []) ∧
    (((genAdv (Except.ok (2 : ℚ)) [[[5]]] (freezeTrainableParameters exTState)).1.hookedFeatures = []) ∧
     ((genAdv (Except.ok (2 : ℚ)) [[[5]]] (freezeTrainableParameters exTState)).1.modelTraining = true) ∧
     (featuresAtRead exTModel
        (unfreezeTrainableParameters
          (genAdv (Except.ok (2 : ℚ)) [[[5]]] (freezeTrainableParameters exTState)).1).modelTraining
        (unfreezeTrainableParameters
          (genAdv (Except.ok (2 : ℚ)) [[[5]]] (freezeTrainableParameters exTState)).1).hookedFeatures
        (2 : ℚ) (3 : ℚ) = [exTModel.feat 2, exTModel.feat 3]) ∧
     (∀ buf f, getLayerInputs false buf f = buf)) :=
  ⟨rfl, C2_buffer_adv_then_clean exTModel 2 3 [[[5]]] exTState rfl⟩

/-- Claim C3 is violated by the code: `step_batch` reads
`_hooked_features_list[0]` and `[1]` with no length check.  Started with
a stale leftover capture `[[99]]`, the buffer holds three entries at
consumption, yet the step raises nothing: it silently pairs the stale
capture with the adversarial capture (the clean capture is ignored),
computes `regTerm = (99 - 2)^2 = 9409`, and clears the buffer. -/
theorem C3_bug_silent_truncation :
    ((stepBatch exTModel (fun o l => o * l) 1 (Except.ok (2 : ℚ)) []
        exTStateStale (3 : ℚ) (4 : ℚ)).2 =
      Except.ok { loss := 9417, regTerm := 9409, lTerm := 8 }) ∧
    ((stepBatch exTModel (fun o l => o * l) 1 (Except.ok (2 : ℚ)) []
        exTStateStale (3 : ℚ) (4 : ℚ)).1.hookedFeatures = []) := by
  constructor
  · show Except.ok _ = Except.ok _
    norm_num [stepBatch, genAdv, freezeTrainableParameters, unfreezeTrainableParameters,
      featuresAtRead, forwardPass, getLayerInputs, exTModel, exTStateStale,
      meanDim0, zipSub, sqSum]
  · rfl

/-- Claim C4 is violated by the code: `step_batch` freezes every
parameter, then calls adversarial generation with no `try/finally`.
When generation raises, the exception propagates while every
parameter's `requires_grad` flag is still `False`, even though it was
`True` before the step. -/
theorem C4_bug_flags_not_restored_on_error :
    exTState.paramsReqGrad () = true ∧
    ((stepBatch exTModel (fun o l => o * l) 1 (Except.error ()) []
        exTState (3 : ℚ) (4 : ℚ)).2 = Except.error TrainerErr.runtimeError) ∧
    ((stepBatch exTModel (fun o l => o * l) 1 (Except.error ()) []
        exTState (3 : ℚ) (4 : ℚ)).1.paramsReqGrad () = false) :=
  ⟨rfl, rfl, rfl⟩

/-- Claim C8: in a healthy batch step the back-propagated loss equals
`classification_loss(adv_outputs, labels)` plus `lambda` times the
squared L2 norm of the flattened difference between the batch-mean
adversarial feature and the batch-mean clean feature. -/
theorem C8_loss_formula {Input Out Labels π : Type} (m : HookedModel Input Out)
    (crit : Out → Labels → ℚ) (lam : ℚ) (adv : Input) (afs : List Feat)
    (st : TrainerState π) (inputs : Input) (labels : Labels)
    (hbuf : st.hookedFeatures = []) (ht : st.modelTraining = true) :
    (stepBatch m crit lam (Except.ok adv) afs st inputs labels).2 =
      Except.ok
        { loss := crit (m.out adv) labels +
            lam * sqSum (zipSub (meanDim0 (m.feat adv)) (meanDim0 (m.feat inputs))),
          regTerm := sqSum (zipSub (meanDim0 (m.feat adv)) (meanDim0 (m.feat inputs))),
          lTerm := crit (m.out adv) labels } := by
  rw [stepBatch_ok m crit lam adv afs st inputs labels hbuf ht]
  rw [mul_comm (sqSum (zipSub (meanDim0 (m.feat adv)) (meanDim0 (m.feat inputs)))) lam]

/-- Claim C8 witness: the loss formula at a concrete batch step
(adversarial batch `2`, clean batch `3`, labels `4`, lambda `2`). -/
theorem C8_loss_formula_witness :
    (exTState.hookedFeatures = [] ∧ exTState.modelTraining = true) ∧
    (stepBatch exTModel (fun o l => o * l) 2 (Except.ok (2 : ℚ)) []
        exTState (3 : ℚ) (4 : ℚ)).2 =
      Except.ok
        { loss := (fun o l => o * l) (exTModel.out 2) (4 : ℚ) +
            2 * sqSum (zipSub (meanDim0 (exTModel.feat 2)) (meanDim0 (exTModel.feat 3))),
          regTerm := sqSum (zipSub (meanDim0 (exTModel.feat 2)) (meanDim0 (exTModel.feat 3))),
          lTerm := (fun o l => o * l) (exTModel.out 2) (4 : ℚ) } :=
  ⟨⟨rfl, rfl⟩,
   C8_loss_formula exTModel (fun o l => o * l) 2 2 [] exTState 3 4 rfl rfl⟩

end TransformRobust
